import Mathlib

/-!
# Verification of the value-bet detection pipeline

Shallow embedding of the pipeline in `model.py`, `scheduler.py` and the
interface boundary of `api_clients.py` / `database.py`.

Modelling conventions:
* Python floats are idealised as exact arithmetic: bookmaker prices, team
  statistics and strength ratios live in `ℚ`; the Poisson model (which uses
  `math.exp`) lives in `ℝ`.  Functions that only do field arithmetic are kept
  polymorphic over a `LinearOrderedField`, so the very same definition is
  executable at `ℚ` and is the one the (noncomputable) `ℝ`-valued engine uses.
* Python's builtin `round(x, d)` (round half to even on the scaled value) is
  modelled by `roundTo d`, an exact half-even rounding.
* Python dicts are modelled as association lists in insertion order; filling a
  dict key overwrites in place (`dictInsert`), `.get` is `List.lookup`.
* Exceptions raised by the external fetch/persistence calls are modelled with
  `Except String`; the orchestrator's observable effects (sent notifications,
  attempted and successful `save_bet` calls) are collected in a `RunOutput`.
-/

/-! ## Half-even rounding (Python's builtin `round`) -/

/-- Round half to even, the tie-breaking rule of Python's builtin `round`. -/
def roundHE {α : Type*} [LinearOrderedField α] [FloorRing α] (x : α) : ℤ :=
  if x - ⌊x⌋ < 1/2 then ⌊x⌋
  else if 1/2 < x - ⌊x⌋ then ⌊x⌋ + 1
  else if Even ⌊x⌋ then ⌊x⌋ else ⌊x⌋ + 1

/-- `round(x, d)` of Python: round `x` to `d` decimal digits, half to even. -/
def roundTo {α : Type*} [LinearOrderedField α] [FloorRing α] (d : ℕ) (x : α) : α :=
  (roundHE (x * 10 ^ d) : α) / 10 ^ d

section RoundLemmas
variable {α : Type*} [LinearOrderedField α] [FloorRing α]

theorem floor_le_roundHE (x : α) : ⌊x⌋ ≤ roundHE x := by
  unfold roundHE; split_ifs <;> omega

theorem roundHE_le_floor_add_one (x : α) : roundHE x ≤ ⌊x⌋ + 1 := by
  unfold roundHE; split_ifs <;> omega

theorem roundHE_mono {x y : α} (h : x ≤ y) : roundHE x ≤ roundHE y := by
  rcases eq_or_lt_of_le (Int.floor_mono h) with hEq | hLt
  · unfold roundHE
    rw [← hEq]
    have hfrac : x - (⌊x⌋ : α) ≤ y - (⌊x⌋ : α) := by linarith
    split_ifs <;> first | omega | linarith
  · calc roundHE x ≤ ⌊x⌋ + 1 := roundHE_le_floor_add_one x
      _ ≤ ⌊y⌋ := hLt
      _ ≤ roundHE y := floor_le_roundHE y

theorem roundHE_intCast (n : ℤ) : roundHE (n : α) = n := by
  unfold roundHE
  rw [Int.floor_intCast]
  norm_num

theorem roundTo_mono {x y : α} (d : ℕ) (h : x ≤ y) : roundTo d x ≤ roundTo d y := by
  unfold roundTo
  have h10 : (0:α) < 10 ^ d := by positivity
  have hle := roundHE_mono (mul_le_mul_of_nonneg_right h (le_of_lt h10))
  exact (div_le_div_iff_of_pos_right h10).mpr (by exact_mod_cast hle)

theorem roundTo_int_div (n : ℤ) (d : ℕ) : roundTo d ((n : α) / 10 ^ d) = (n : α) / 10 ^ d := by
  have h10 : (10:α) ^ d ≠ 0 := by positivity
  unfold roundTo
  rw [div_mul_cancel₀ _ h10, roundHE_intCast]

theorem roundTo_zero (d : ℕ) : roundTo d (0 : α) = 0 := by
  have h := @roundTo_int_div α _ _ 0 d
  simpa using h

theorem roundTo_nonneg {x : α} (d : ℕ) (h : 0 ≤ x) : 0 ≤ roundTo d x := by
  have := roundTo_mono d h
  rwa [roundTo_zero] at this

theorem roundHE_eq_of_lt_half (x : α) (n : ℤ) (h1 : (n:α) ≤ x)
    (h2 : x < n + 1/2) : roundHE x = n := by
  have hf : ⌊x⌋ = n := Int.floor_eq_iff.mpr ⟨h1, by linarith⟩
  unfold roundHE
  rw [hf, if_pos (by linarith)]

end RoundLemmas

/-! ## `model.py` — Poisson model

`poisson_prob`, `build_score_matrix`, `calc_1x2`, `calc_over_under` and
`calc_btts` are direct translations of `model.py` over `ℝ` (the code calls
`math.exp`).  Python's `sum(... for i in range(len(matrix)) for j in
range(len(matrix[i])) if cond)` is the guarded double sum `cellSum`. -/

/-- `poisson_prob` of `model.py`: `P(X=k)` for a Poisson with rate `lam`;
`lam ≤ 0` degenerates to a point mass at `k = 0`. -/
noncomputable def poisson_prob (lam : ℝ) (k : ℕ) : ℝ :=
  if lam ≤ 0 then (if k = 0 then 1 else 0)
  else lam ^ k * Real.exp (-lam) / (Nat.factorial k)

/-- `build_score_matrix` of `model.py`: the `(max_goals+1) × (max_goals+1)`
matrix of `P(home=i, away=j)` under independence. -/
noncomputable def build_score_matrix (lambda_home lambda_away : ℝ)
    (max_goals : ℕ := 8) : List (List ℝ) :=
  (List.range (max_goals + 1)).map fun i =>
    (List.range (max_goals + 1)).map fun j =>
      poisson_prob lambda_home i * poisson_prob lambda_away j

/-- Python's guarded sum over all cells of a list-of-lists matrix. -/
noncomputable def cellSum (m : List (List ℝ)) (p : ℕ → ℕ → Prop)
    [∀ i j, Decidable (p i j)] : ℝ :=
  ∑ i ∈ Finset.range m.length, ∑ j ∈ Finset.range (m.getD i []).length,
    if p i j then (m.getD i []).getD j 0 else 0

/-- Sum of every cell of the matrix (the grid's total probability mass). -/
noncomputable def matrixTotal (m : List (List ℝ)) : ℝ :=
  cellSum m fun _ _ => True

/-- Result dict of `calc_1x2`. -/
structure Probs1x2 where
  home_win : ℝ
  draw : ℝ
  away_win : ℝ

/-- `calc_1x2` of `model.py`: Home/Draw/Away probabilities from the matrix. -/
noncomputable def calc_1x2 (m : List (List ℝ)) : Probs1x2 where
  home_win := cellSum m fun i j => j < i
  draw := cellSum m fun i j => i = j
  away_win := cellSum m fun i j => i < j

/-- Result dict of `calc_over_under`. -/
structure ProbsOU where
  over_2_5 : ℝ
  under_2_5 : ℝ

/-- `calc_over_under` of `model.py`: over is the guarded cell sum, under is
its complement to 1 (not a cell sum). -/
noncomputable def calc_over_under (m : List (List ℝ)) (threshold : ℝ := 5/2) :
    ProbsOU :=
  let over := cellSum m fun i j => threshold < (i : ℝ) + (j : ℝ)
  { over_2_5 := over, under_2_5 := 1 - over }

/-- Result dict of `calc_btts`. -/
structure ProbsBTTS where
  btts_yes : ℝ
  btts_no : ℝ

/-- `calc_btts` of `model.py`: both-teams-to-score from rows/cols `≥ 1`;
`btts_no` is the complement to 1 (not a cell sum). -/
noncomputable def calc_btts (m : List (List ℝ)) : ProbsBTTS :=
  let btts := ∑ i ∈ Finset.Ico 1 m.length,
    ∑ j ∈ Finset.Ico 1 (m.getD i []).length, (m.getD i []).getD j 0
  { btts_yes := btts, btts_no := 1 - btts }

/-! ## `model.py` — strengths, league averages -/

/-- A row of the `team_stats` table (`database.py`), as consumed by
`calc_attack_defense_strength` / `calc_league_averages`.  Goals are `REAL`
columns (modelled `ℚ`), game counts are `INTEGER` columns. -/
structure TeamStats where
  team_name : String
  home_goals_scored : ℚ
  home_goals_conceded : ℚ
  away_goals_scored : ℚ
  away_goals_conceded : ℚ
  home_games : ℤ
  away_games : ℤ
deriving DecidableEq

/-- The strength dict built per team by `calc_attack_defense_strength`. -/
structure TeamStrength where
  att_home : ℚ
  def_home : ℚ
  att_away : ℚ
  def_away : ℚ
  name : String
deriving DecidableEq

/-- The per-team body of the loop in `calc_attack_defense_strength`
(`model.py` lines 81–96). -/
def strengthOf (s : TeamStats) (league_avg_home league_avg_away : ℚ) :
    TeamStrength :=
  let h_games : ℤ := max s.home_games 1
  let a_games : ℤ := max s.away_games 1
  let home_scored_avg := s.home_goals_scored / (h_games : ℚ)
  let home_conceded_avg := s.home_goals_conceded / (h_games : ℚ)
  let away_scored_avg := s.away_goals_scored / (a_games : ℚ)
  let away_conceded_avg := s.away_goals_conceded / (a_games : ℚ)
  { att_home := home_scored_avg / max league_avg_home (1/100)
    def_home := home_conceded_avg / max league_avg_away (1/100)
    att_away := away_scored_avg / max league_avg_away (1/100)
    def_away := away_conceded_avg / max league_avg_home (1/100)
    name := s.team_name }

/-- `calc_attack_defense_strength` of `model.py`: per-team attack/defense
multipliers; game counts floored at 1, league averages floored at 0.01. -/
def calc_attack_defense_strength (team_stats : List (ℕ × TeamStats))
    (league_avg_home league_avg_away : ℚ) : List (ℕ × TeamStrength) :=
  team_stats.map fun ts => (ts.1, strengthOf ts.2 league_avg_home league_avg_away)

/-- `calc_league_averages` of `model.py`: league-wide home/away goals per
game, total games floored at 1. -/
def calc_league_averages (team_stats : List (ℕ × TeamStats)) : ℚ × ℚ :=
  let total_home_scored := (team_stats.map fun ts => ts.2.home_goals_scored).sum
  let total_away_scored := (team_stats.map fun ts => ts.2.away_goals_scored).sum
  let total_home_games := (team_stats.map fun ts => ts.2.home_games).sum
  let total_away_games := (team_stats.map fun ts => ts.2.away_games).sum
  (total_home_scored / ((max total_home_games 1 : ℤ) : ℚ),
   total_away_scored / ((max total_away_games 1 : ℤ) : ℚ))

/-! ## `model.py` — `predict_match` -/

/-- `predict_match` of `model.py`.  Returns the prediction dict (keys in
source order) or `none` when either team is absent from the strength mapping.
The λs are products of `ℚ`-valued strengths clamped to `[0.3, 6.0]`; the
probabilities need `ℝ`. -/
noncomputable def predict_match (home_team_id away_team_id : ℕ)
    (strengths : List (ℕ × TeamStrength)) (league_avg_home league_avg_away : ℚ) :
    Option (List (String × ℝ)) :=
  match strengths.lookup home_team_id, strengths.lookup away_team_id with
  | some h, some a =>
    let lambda_home : ℚ := h.att_home * a.def_away * league_avg_home
    let lambda_away : ℚ := a.att_away * h.def_home * league_avg_away
    let lambda_home : ℚ := max (3/10) (min lambda_home 6)
    let lambda_away : ℚ := max (3/10) (min lambda_away 6)
    let matrix := build_score_matrix (lambda_home : ℝ) (lambda_away : ℝ) 8
    let probs_1x2 := calc_1x2 matrix
    let probs_ou := calc_over_under matrix (5/2)
    let probs_btts := calc_btts matrix
    some [("lambda_home", roundTo 3 ((lambda_home : ℚ) : ℝ)),
          ("lambda_away", roundTo 3 ((lambda_away : ℚ) : ℝ)),
          ("home_win", roundTo 4 probs_1x2.home_win),
          ("draw", roundTo 4 probs_1x2.draw),
          ("away_win", roundTo 4 probs_1x2.away_win),
          ("over_2_5", roundTo 4 probs_ou.over_2_5),
          ("under_2_5", roundTo 4 probs_ou.under_2_5),
          ("btts_yes", roundTo 4 probs_btts.btts_yes),
          ("btts_no", roundTo 4 probs_btts.btts_no)]
  | _, _ => none

/-- Lookup of a key in an optional prediction dict. -/
noncomputable def predLookup (p : Option (List (String × ℝ))) (key : String) :
    Option ℝ :=
  p.bind fun entries => entries.lookup key

/-! ## `model.py` — `find_value_bets` -/

/-- A value-bet dict as appended by `find_value_bets` (all numeric fields
already rounded, as in the source). -/
structure ValueBet (α : Type*) where
  market : String
  bookmaker : String
  bk_odds : α
  model_odds : α
  probability : α
  value : α
deriving DecidableEq

/-- `market_map` of `find_value_bets`, in source order. -/
def market_map : List (String × String) :=
  [("home_win", "Home Win"), ("draw", "Draw"), ("away_win", "Away Win"),
   ("over_2_5", "Over 2.5"), ("under_2_5", "Under 2.5")]

variable {α : Type*}

/-- The accumulation loop of `find_value_bets` before sorting: for each
bookmaker (dict order) and each market (in `market_map` order) with both a
model probability and a (non-`None`) bookmaker price, keep the candidate when
`prob ≥ min_prob` and `value > value_threshold` strictly. -/
def collect_value_bets [LinearOrderedField α] [FloorRing α]
    (predictions : List (String × α))
    (odds : List (String × List (String × Option α)))
    (value_threshold : α) (min_prob : α) : List (ValueBet α) :=
  odds.flatMap fun bk =>
    market_map.filterMap fun mm =>
      match predictions.lookup mm.1, (bk.2.lookup mm.1).join with
      | some prob, some bk_odd =>
        if prob < min_prob then none
        else
          let value := bk_odd * prob - 1
          if value_threshold < value then
            some { market := mm.2
                   bookmaker := bk.1
                   bk_odds := roundTo 3 bk_odd
                   model_odds := roundTo 3 (1 / prob)
                   probability := roundTo 4 prob
                   value := roundTo 4 value }
          else none
      | _, _ => none

/-- Stable insertion (ties keep the earlier element first) for the descending
sort by `value`. -/
def insertBetDesc [LinearOrder α] (b : ValueBet α) :
    List (ValueBet α) → List (ValueBet α)
  | [] => [b]
  | a :: l => if a.value ≤ b.value then b :: a :: l else a :: insertBetDesc b l

/-- Stable sort by `value` descending: the model of Python's stable
`list.sort(key=..., reverse=True)`. -/
def sortBetsDesc [LinearOrder α] : List (ValueBet α) → List (ValueBet α)
  | [] => []
  | b :: l => insertBetDesc b (sortBetsDesc l)

/-- `find_value_bets` of `model.py`: collect qualifying candidates, then sort
by `value` descending (stable). -/
def find_value_bets [LinearOrderedField α] [FloorRing α]
    (predictions : List (String × α))
    (odds : List (String × List (String × Option α)))
    (value_threshold : α := 5/100) (min_prob : α := 55/100) : List (ValueBet α) :=
  sortBetsDesc (collect_value_bets predictions odds value_threshold min_prob)

/-! ## `scheduler.py` — value-bet engine

The engine's external calls (`api_clients.py`, `database.py`,
`telegram_bot.py`) are the interface boundary: they are modelled by an
environment of fallible functions (`Env`), and the notifications/persistence
calls the run performs are collected in the result (`RunOutput`).  Per-row
`save_team_stats` during auto-refresh is treated as reliable (the source
wraps the whole refresh block in one `try`; the re-read after the upserts is
`dbReadAfterSave`). -/

/-- `LEAGUE_NAMES.get(league_id, str(league_id))` of `scheduler.py`. -/
def leagueName (league_id : ℕ) : String :=
  if league_id = 61 then "Ligue 1"
  else if league_id = 39 then "Premier League"
  else toString league_id

/-- `startsWithB n h`: the char list `h` starts with `n`. -/
def startsWithB : List Char → List Char → Bool
  | [], _ => true
  | _ :: _, [] => false
  | a :: as, b :: bs => a == b && startsWithB as bs

/-- Contiguous-substring test on char lists. -/
def substrB (needle : List Char) : List Char → Bool
  | [] => needle.isEmpty
  | c :: rest => startsWithB needle (c :: rest) || substrB needle rest

/-- Python's `a in b` on strings: `a` is a contiguous substring of `b`. -/
def pyIn (a b : String) : Bool := substrB a.toList b.toList

/-- Python's `str.lower()`, on the underlying character list. -/
def pyLower (s : String) : String := ⟨s.data.map Char.toLower⟩

/-- A fixture dict as produced by `get_fixtures` (`api_clients.py`). -/
structure Fixture where
  fixture_id : ℕ
  date : String
  home_team_id : ℕ
  home_team_name : String
  away_team_id : ℕ
  away_team_name : String
  league_id : ℕ
deriving DecidableEq

/-- The per-event bookmaker→market→price mapping of `get_odds`
(`api_clients.py`); a price may be `None` when the outcome name was not
found. -/
abbrev BookOdds := List (String × List (String × Option ℝ))

/-- An odds event dict as produced by `get_odds` (`api_clients.py`). -/
structure OddsEvent where
  date : String
  home_team : String
  away_team : String
  odds : BookOdds
  event_id : String

/-- In-place overwrite insert: the model of filling a Python dict key (and of
an SQL upsert followed by a read in insertion order). -/
def dictInsert {κ β : Type*} [BEq κ] (m : List (κ × β)) (k : κ) (v : β) :
    List (κ × β) :=
  if m.any fun e => e.1 == k then
    m.map fun e => if e.1 == k then (k, v) else e
  else m ++ [(k, v)]

/-- Build a dict from a list of key/value pairs, later pairs overwriting. -/
def buildDict {κ β : Type*} [BEq κ] (l : List (κ × β)) : List (κ × β) :=
  l.foldl (fun m e => dictInsert m e.1 e.2) []

/-- Re-reading `team_stats` from the DB right after upserting the standings
rows into a previously empty league/season slice. -/
def dbReadAfterSave (rows : List (ℕ × TeamStats)) : List (ℕ × TeamStats) :=
  buildDict rows

/-- The odds-reconciliation step of the fixture loop (`scheduler.py` lines
159–165): exact lowercased-key lookup, then on a falsy (absent or empty)
result the first index entry whose home and away names are each in a
substring relation (either direction) with the fixture's names. -/
def reconcileOdds {β : Type*} (odds_lookup : List ((String × String) × List β))
    (home_name away_name : String) : List β :=
  let odds := (odds_lookup.lookup (pyLower home_name, pyLower away_name)).getD []
  if odds.isEmpty then
    match odds_lookup.find? fun e =>
        (pyIn e.1.1 (pyLower home_name) || pyIn (pyLower home_name) e.1.1) &&
        (pyIn e.1.2 (pyLower away_name) || pyIn (pyLower away_name) e.1.2) with
    | some e => e.2
    | none => odds
  else odds

/-- The record handed to `save_bet` (`database.py`): match info plus the
value-bet dict. -/
structure SavedRecord where
  match_date : String
  league : String
  home_team : String
  away_team : String
  bet : ValueBet ℝ

/-- `match_info` of the fixture loop. -/
structure MatchInfo where
  date : String
  home_team : String
  away_team : String
  league : String

/-- The process-wide `worker_state` dict of `scheduler.py` (timestamps are
abstract instants). -/
structure WorkerState where
  started_at : Option ℕ
  last_run : Option ℕ
  last_refresh : Option ℕ
  bets_today : ℕ
  running : Bool
deriving DecidableEq

/-- Notifications the engine can emit (`send_message` /
`send_daily_summary`), as structured payloads. -/
inductive Msg
  | alreadyRunning
  | started
  | dailySummary (bets : List (ValueBet ℝ × MatchInfo))
  | errorDigest (errors : List String)

/-- The engine's external interface: the fetch functions may raise
(`Except.error` carries the exception's message string); `get_team_stats` is
a reliable DB read; `save_bet` may raise per record. -/
structure Env where
  get_fixtures : ℕ → Except String (List Fixture)
  get_team_stats : ℕ → List (ℕ × TeamStats)
  get_team_standings : ℕ → Except String (List (ℕ × TeamStats))
  get_odds : ℕ → Except String (List OddsEvent)
  save_bet : SavedRecord → Except String ℕ

/-- What one league contributes to a run: error strings, successfully saved
bets (with their match info), and every attempted `save_bet` call. -/
structure LeagueResult where
  errors : List String
  saved : List (ValueBet ℝ × MatchInfo)
  attempted : List SavedRecord
deriving Inhabited

/-- The fixture-loop body of `run_value_bet_engine` (`scheduler.py` lines
151–188): predict, reconcile odds, score, persist each bet (a `save_bet`
failure is logged and skipped — it is *not* appended to `errors`). -/
noncomputable def processFixture (env : Env) (vt mp : ℝ) (league_name : String)
    (strengths : List (ℕ × TeamStrength)) (avg_home avg_away : ℚ)
    (odds_lookup : List ((String × String) × BookOdds)) (fix : Fixture) :
    List (ValueBet ℝ × MatchInfo) × List SavedRecord :=
  match predict_match fix.home_team_id fix.away_team_id strengths avg_home avg_away with
  | none => ([], [])
  | some prediction =>
    let odds := reconcileOdds odds_lookup fix.home_team_name fix.away_team_name
    if odds.isEmpty then ([], [])
    else
      let value_bets := find_value_bets prediction odds vt mp
      let match_info : MatchInfo :=
        ⟨fix.date, fix.home_team_name, fix.away_team_name, league_name⟩
      let record := fun b : ValueBet ℝ =>
        SavedRecord.mk fix.date league_name fix.home_team_name fix.away_team_name b
      (value_bets.filterMap fun b =>
         match env.save_bet (record b) with
         | .ok _ => some (b, match_info)
         | .error _ => none,
       value_bets.map record)

/-- One iteration of the league loop of `run_value_bet_engine`
(`scheduler.py` lines 103–188): fixtures fetch, empty check, stats lookup
with auto-refresh fallback, odds fetch (failure tolerated with an error
string and an empty odds set), odds index build, fixture loop. -/
noncomputable def processLeague (env : Env) (vt mp : ℝ) (league_id : ℕ) :
    LeagueResult :=
  let league_name := leagueName league_id
  match env.get_fixtures league_id with
  | .error e => ⟨[s!"Fixtures {league_name}: {e}"], [], []⟩
  | .ok fixtures =>
    if fixtures.isEmpty then ⟨[], [], []⟩
    else
      let ts0 := env.get_team_stats league_id
      let tsE : Except String (List (ℕ × TeamStats)) :=
        if ts0.isEmpty then
          match env.get_team_standings league_id with
          | .error e => .error s!"Auto-refresh {league_name}: {e}"
          | .ok teams => .ok (dbReadAfterSave teams)
        else .ok ts0
      match tsE with
      | .error msg => ⟨[msg], [], []⟩
      | .ok team_stats =>
        let avgs := calc_league_averages team_stats
        let strengths := calc_attack_defense_strength team_stats avgs.1 avgs.2
        let oddsRes : List String × List OddsEvent :=
          match env.get_odds league_id with
          | .error e => ([s!"Cotes {league_name}: {e}"], [])
          | .ok odds_events => ([], odds_events)
        let odds_lookup := buildDict (oddsRes.2.map fun ev =>
          ((pyLower ev.home_team, pyLower ev.away_team), ev.odds))
        let fixResults := fixtures.map fun fix =>
          processFixture env vt mp league_name strengths avgs.1 avgs.2 odds_lookup fix
        ⟨oddsRes.1, (fixResults.map Prod.fst).join, (fixResults.map Prod.snd).join⟩

/-- Everything observable about one invocation of the engine. -/
structure RunOutput where
  state : WorkerState
  errors : List String
  savedBets : List (ValueBet ℝ × MatchInfo)
  attemptedSaves : List SavedRecord
  messages : List Msg

/-- `run_value_bet_engine` of `scheduler.py`: the `running` guard, the league
loop, the final worker-state update (`last_run`, `bets_today`, `running`),
the daily summary and the error digest. -/
noncomputable def run_value_bet_engine (env : Env) (leagues : List ℕ)
    (vt mp : ℝ) (st : WorkerState) (now : ℕ) (silent : Bool) : RunOutput :=
  if st.running then
    { state := st, errors := [], savedBets := [], attemptedSaves := []
      messages := [Msg.alreadyRunning] }
  else
    let startMsgs : List Msg := if silent then [] else [Msg.started]
    let perLeague := leagues.map fun league_id => processLeague env vt mp league_id
    let errors := (perLeague.map LeagueResult.errors).join
    let all_value_bets := (perLeague.map LeagueResult.saved).join
    let state' : WorkerState :=
      { st with last_run := some now, bets_today := all_value_bets.length
                running := false }
    { state := state'
      errors := errors
      savedBets := all_value_bets
      attemptedSaves := (perLeague.map LeagueResult.attempted).join
      messages := startMsgs ++ [Msg.dailySummary all_value_bets] ++
        (if errors.isEmpty then [] else [Msg.errorDigest errors]) }

/-! ## Lemmas about the score matrix and its guarded sums -/

theorem cellSum_congr (m : List (List ℝ)) (p q : ℕ → ℕ → Prop)
    [∀ i j, Decidable (p i j)] [∀ i j, Decidable (q i j)]
    (h : ∀ i j, p i j ↔ q i j) : cellSum m p = cellSum m q := by
  unfold cellSum
  refine Finset.sum_congr rfl fun i _ => Finset.sum_congr rfl fun j _ => ?_
  exact if_congr (h i j) rfl rfl

theorem cellSum_add_compl (m : List (List ℝ)) (p : ℕ → ℕ → Prop)
    [∀ i j, Decidable (p i j)] :
    cellSum m p + cellSum m (fun i j => ¬ p i j) = matrixTotal m := by
  unfold cellSum matrixTotal
  rw [← Finset.sum_add_distrib]
  refine Finset.sum_congr rfl fun i _ => ?_
  rw [← Finset.sum_add_distrib]
  refine Finset.sum_congr rfl fun j _ => ?_
  by_cases h : p i j <;> simp [h]

/-- The three 1X2 sums partition the full grid: their total is exactly the
matrix's total mass, for any matrix. -/
theorem sum_1x2_eq_matrixTotal (m : List (List ℝ)) :
    (calc_1x2 m).home_win + (calc_1x2 m).draw + (calc_1x2 m).away_win =
      matrixTotal m := by
  unfold calc_1x2 matrixTotal cellSum
  rw [← Finset.sum_add_distrib, ← Finset.sum_add_distrib]
  refine Finset.sum_congr rfl fun i _ => ?_
  rw [← Finset.sum_add_distrib, ← Finset.sum_add_distrib]
  refine Finset.sum_congr rfl fun j _ => ?_
  rcases lt_trichotomy i j with h | h | h
  · simp [h, lt_asymm h, Nat.ne_of_lt h]
  · simp [h, lt_irrefl]
  · simp [h, lt_asymm h, (Nat.ne_of_lt h).symm]

theorem build_score_matrix_length (lh la : ℝ) (n : ℕ) :
    (build_score_matrix lh la n).length = n + 1 := by
  simp [build_score_matrix]

theorem build_score_matrix_row (lh la : ℝ) {n i : ℕ} (hi : i < n + 1) :
    (build_score_matrix lh la n).getD i [] =
      (List.range (n + 1)).map fun j => poisson_prob lh i * poisson_prob la j := by
  unfold build_score_matrix
  rw [List.getD_eq_getElem?_getD]
  simp [List.getElem?_range, hi]

theorem build_score_matrix_cell (lh la : ℝ) {n i j : ℕ}
    (hi : i < n + 1) (hj : j < n + 1) :
    ((build_score_matrix lh la n).getD i []).getD j 0 =
      poisson_prob lh i * poisson_prob la j := by
  rw [build_score_matrix_row lh la hi, List.getD_eq_getElem?_getD]
  simp [List.getElem?_range, hj]

/-- A guarded cell sum over the built matrix is the corresponding double
`Finset` sum of Poisson products. -/
theorem cellSum_build (lh la : ℝ) (n : ℕ) (p : ℕ → ℕ → Prop)
    [∀ i j, Decidable (p i j)] :
    cellSum (build_score_matrix lh la n) p =
      ∑ i ∈ Finset.range (n + 1), ∑ j ∈ Finset.range (n + 1),
        if p i j then poisson_prob lh i * poisson_prob la j else 0 := by
  unfold cellSum
  rw [build_score_matrix_length]
  refine Finset.sum_congr rfl fun i hi => ?_
  rw [build_score_matrix_row lh la (Finset.mem_range.mp hi)]
  rw [List.length_map, List.length_range]
  refine Finset.sum_congr rfl fun j hj => ?_
  have hj' := Finset.mem_range.mp hj
  by_cases hp : p i j
  · rw [if_pos hp, if_pos hp, List.getD_eq_getElem?_getD]
    simp [List.getElem?_range, hj']
  · rw [if_neg hp, if_neg hp]

theorem poisson_prob_nonneg (lam : ℝ) (k : ℕ) : 0 ≤ poisson_prob lam k := by
  unfold poisson_prob
  split_ifs with h h2
  · norm_num
  · norm_num
  · push_neg at h
    exact div_nonneg (mul_nonneg (pow_nonneg h.le k) (Real.exp_nonneg _))
      (Nat.cast_nonneg _)

theorem cellSum_build_nonneg (lh la : ℝ) (n : ℕ) (p : ℕ → ℕ → Prop)
    [∀ i j, Decidable (p i j)] :
    0 ≤ cellSum (build_score_matrix lh la n) p := by
  rw [cellSum_build]
  refine Finset.sum_nonneg fun i _ => Finset.sum_nonneg fun j _ => ?_
  split_ifs
  · exact mul_nonneg (poisson_prob_nonneg _ _) (poisson_prob_nonneg _ _)
  · exact le_rfl

theorem filter_range_one_le (n : ℕ) :
    (Finset.range n).filter (fun i => 1 ≤ i) = Finset.Ico 1 n := by
  ext x
  simp only [Finset.mem_filter, Finset.mem_range, Finset.mem_Ico]
  omega

theorem btts_yes_eq_cellSum (m : List (List ℝ)) :
    (calc_btts m).btts_yes = cellSum m fun i j => 1 ≤ i ∧ 1 ≤ j := by
  dsimp only [calc_btts, cellSum]
  rw [← filter_range_one_le m.length, Finset.sum_filter]
  refine Finset.sum_congr rfl fun i _ => ?_
  by_cases hi : 1 ≤ i
  · rw [if_pos hi, ← filter_range_one_le (m.getD i []).length, Finset.sum_filter]
    refine Finset.sum_congr rfl fun j _ => ?_
    by_cases hj : 1 ≤ j
    · rw [if_pos hj, if_pos ⟨hi, hj⟩]
    · rw [if_neg hj, if_neg fun h => hj h.2]
  · rw [if_neg hi]
    exact (Finset.sum_eq_zero fun j _ => by rw [if_neg fun h => hi h.1]).symm

/-! ## Claim C10 -/

/-- C10: for every score matrix, `calc_over_under` returns `under_2_5` equal
to exactly `1 - over_2_5` and `calc_btts` returns `btts_no` equal to exactly
`1 - btts_yes` (each pair sums to exactly 1 before rounding); consequently
all probability mass outside the truncated grid is attributed to `under_2_5`
and to `btts_no`: `under_2_5` exceeds the grid's own `i+j ≤ 2.5` cell sum by
`1 - matrixTotal m`, and `btts_no` exceeds the grid's `i = 0 ∨ j = 0` cell
sum by the same defect. -/
theorem C10_over_under_btts_complement (m : List (List ℝ)) :
    (calc_over_under m (5/2)).over_2_5 + (calc_over_under m (5/2)).under_2_5 = 1 ∧
    (calc_btts m).btts_yes + (calc_btts m).btts_no = 1 ∧
    (calc_over_under m (5/2)).under_2_5 =
      cellSum m (fun i j => (i : ℝ) + (j : ℝ) ≤ 5/2) + (1 - matrixTotal m) ∧
    (calc_btts m).btts_no =
      cellSum m (fun i j => i = 0 ∨ j = 0) + (1 - matrixTotal m) := by
  refine ⟨by dsimp only [calc_over_under]; ring,
          by dsimp only [calc_btts]; ring, ?_, ?_⟩
  · have hsplit := cellSum_add_compl m fun i j => (5/2 : ℝ) < (i : ℝ) + (j : ℝ)
    have hcongr : cellSum m (fun i j => ¬ ((5/2 : ℝ) < (i : ℝ) + (j : ℝ))) =
        cellSum m (fun i j => (i : ℝ) + (j : ℝ) ≤ 5/2) :=
      cellSum_congr m _ _ fun i j => not_lt
    dsimp only [calc_over_under]
    rw [← hcongr]
    linarith
  · have hsplit := cellSum_add_compl m fun i j => 1 ≤ i ∧ 1 ≤ j
    have hcongr : cellSum m (fun i j => ¬ (1 ≤ i ∧ 1 ≤ j)) =
        cellSum m (fun i j => i = 0 ∨ j = 0) :=
      cellSum_congr m _ _ fun i j => by omega
    have hyes := btts_yes_eq_cellSum m
    dsimp only [calc_btts] at hyes ⊢
    rw [← hcongr]
    linarith

/-! ## Claim C7 -/

/-- The defining equations of a team's strength entry, with every divisor
used by `strengthOf` strictly positive: game counts are floored at 1 and the
league averages at 0.01, so no division by zero occurs and the ratios are
the finite values determined by these equations. -/
def StrengthDefs (s : TeamStats) (aH aW : ℚ) : Prop :=
  0 < ((max s.home_games 1 : ℤ) : ℚ) ∧ 0 < ((max s.away_games 1 : ℤ) : ℚ) ∧
  0 < max aH (1/100) ∧ 0 < max aW (1/100) ∧
  (strengthOf s aH aW).att_home * max aH (1/100) * ((max s.home_games 1 : ℤ) : ℚ) =
    s.home_goals_scored ∧
  (strengthOf s aH aW).def_home * max aW (1/100) * ((max s.home_games 1 : ℤ) : ℚ) =
    s.home_goals_conceded ∧
  (strengthOf s aH aW).att_away * max aW (1/100) * ((max s.away_games 1 : ℤ) : ℚ) =
    s.away_goals_scored ∧
  (strengthOf s aH aW).def_away * max aH (1/100) * ((max s.away_games 1 : ℤ) : ℚ) =
    s.away_goals_conceded

/-- C7: for every team-stats mapping — including teams with zero recorded
home or away games — `calc_attack_defense_strength` and
`calc_league_averages` never divide by zero: every divisor is floored to a
strictly positive value (game counts at 1, league averages at 0.01, total
game counts at 1) and the resulting ratios and averages are the finite
values determined by the corresponding defining equations. -/
theorem C7_no_zero_division :
    (∀ (team_stats : List (ℕ × TeamStats)) (aH aW : ℚ) (tid : ℕ) (s : TeamStats),
      (tid, s) ∈ team_stats →
      (tid, strengthOf s aH aW) ∈ calc_attack_defense_strength team_stats aH aW ∧
      StrengthDefs s aH aW) ∧
    (∀ team_stats : List (ℕ × TeamStats),
      0 < ((max ((team_stats.map fun t => t.2.home_games).sum) 1 : ℤ) : ℚ) ∧
      0 < ((max ((team_stats.map fun t => t.2.away_games).sum) 1 : ℤ) : ℚ) ∧
      (calc_league_averages team_stats).1 *
          ((max ((team_stats.map fun t => t.2.home_games).sum) 1 : ℤ) : ℚ) =
        (team_stats.map fun t => t.2.home_goals_scored).sum ∧
      (calc_league_averages team_stats).2 *
          ((max ((team_stats.map fun t => t.2.away_games).sum) 1 : ℤ) : ℚ) =
        (team_stats.map fun t => t.2.away_goals_scored).sum) := by
  have hmaxQ : ∀ n : ℤ, (0:ℚ) < ((max n 1 : ℤ) : ℚ) := fun n =>
    Int.cast_pos.mpr (lt_of_lt_of_le one_pos (le_max_right n 1))
  have hmaxA : ∀ q : ℚ, 0 < max q (1/100) := fun q =>
    lt_of_lt_of_le (by norm_num) (le_max_right q (1/100))
  constructor
  · intro team_stats aH aW tid s hmem
    refine ⟨List.mem_map.mpr ⟨(tid, s), hmem, rfl⟩, hmaxQ _, hmaxQ _, hmaxA _, hmaxA _,
      ?_, ?_, ?_, ?_⟩ <;>
    · dsimp only [strengthOf]
      rw [div_mul_cancel₀ _ (ne_of_gt (hmaxA _)), div_mul_cancel₀ _ (ne_of_gt (hmaxQ _))]
  · intro team_stats
    refine ⟨hmaxQ _, hmaxQ _, ?_, ?_⟩ <;>
    · dsimp only [calc_league_averages]
      rw [div_mul_cancel₀ _ (ne_of_gt (hmaxQ _))]

/-- A team row with zero recorded games, exercising all the floors. -/
def statZero : TeamStats := ⟨"Zero FC", 3, 2, 1, 4, 0, 0⟩

/-- Witness for C7 at a team with `home_games = away_games = 0` and zero
league averages. -/
theorem C7_no_zero_division_witness :
    ((5, statZero) ∈ [(5, statZero)]) ∧
    ((5, strengthOf statZero 0 0) ∈ calc_attack_defense_strength [(5, statZero)] 0 0 ∧
      StrengthDefs statZero 0 0) :=
  ⟨List.mem_singleton.mpr rfl,
   C7_no_zero_division.1 [(5, statZero)] 0 0 5 statZero (List.mem_singleton.mpr rfl)⟩

/-! ## Claims C3 and C5 — odds reconciliation -/

/-- A nonempty bookmaker→market→price payload for a PSG event. -/
noncomputable def oddsPSG : BookOdds := [("Winamax", [("home_win", some 2)])]

/-- Odds index holding a single entry keyed by the full lowercased names. -/
noncomputable def idxPSG : List ((String × String) × BookOdds) :=
  [(("paris saint germain", "olympique marseille"), oddsPSG)]

/-- Counterexample to C3: with the odds index keyed by
`"paris saint germain"`, a fixture named `"Paris SG"` is *not* fuzzy-matched
(neither lowercased name is a contiguous substring of the other), so the
reconciliation returns the empty mapping instead of the entry's odds. -/
theorem C3_counterexample :
    reconcileOdds idxPSG "Paris SG" "Olympique Marseille" = [] ∧
    oddsPSG ≠ [] :=
  ⟨rfl, by simp [oddsPSG]⟩

/-- C3 (amended): the fuzzy fallback succeeds exactly on contiguous-substring
relations.  `"FC Paris Saint Germain"` (which contains the key
`"paris saint germain"`) is matched and returns the entry's odds, while both
`"Paris SG"` and `"PSG"` have no substring relation with the key in either
direction, fail, and leave the fixture with no odds (it is skipped). -/
theorem C3_fuzzy_substring_only :
    reconcileOdds idxPSG "FC Paris Saint Germain" "Olympique Marseille" = oddsPSG ∧
    reconcileOdds idxPSG "Paris SG" "Olympique Marseille" = [] ∧
    reconcileOdds idxPSG "PSG" "Olympique Marseille" = [] ∧
    oddsPSG ≠ [] :=
  ⟨rfl, rfl, rfl, by simp [oddsPSG]⟩

/-- A nonempty payload for the fuzzy-keyed Lyon entry. -/
noncomputable def oddsLyonFuzzy : BookOdds := [("Betclic", [("home_win", some 3)])]

/-- Index where the exact key's entry is the *empty* mapping while an earlier
entry would fuzzy-match. -/
noncomputable def idxLyonEmptyExact : List ((String × String) × BookOdds) :=
  [(("olympique lyon", "nice"), oddsLyonFuzzy), (("lyon", "nice"), [])]

/-- Counterexample to C5: the fixture's lowercased pair `("lyon", "nice")`
*is* an exact key of the index, but its entry is the empty (falsy) mapping,
so the code falls through to the fuzzy scan and returns the other entry's
odds — the exact-key entry is not the one returned, and the fuzzy scan ran
despite the exact lookup hitting. -/
theorem C5_counterexample :
    idxLyonEmptyExact.lookup (pyLower "Lyon", pyLower "Nice") = some [] ∧
    reconcileOdds idxLyonEmptyExact "Lyon" "Nice" = oddsLyonFuzzy ∧
    oddsLyonFuzzy ≠ [] :=
  ⟨rfl, rfl, by simp [oddsLyonFuzzy]⟩

/-- C5 (amended): whenever the exact lowercased-key lookup returns a
*nonempty* entry, that entry is returned, taking precedence over any fuzzy
candidate; the fuzzy scan is only consulted when the exact lookup misses or
returns an empty mapping. -/
theorem C5_exact_precedence {β : Type*} (idx : List ((String × String) × List β))
    (home away : String) (o : List β)
    (hlookup : idx.lookup (pyLower home, pyLower away) = some o) (hne : o ≠ []) :
    reconcileOdds idx home away = o := by
  unfold reconcileOdds
  rw [hlookup]
  have hE : o.isEmpty = false := by
    cases o
    · exact absurd rfl hne
    · rfl
  simp [hE]

/-- Index where the exact key's entry is nonempty and an earlier entry would
also fuzzy-qualify. -/
noncomputable def idxLyonExact : List ((String × String) × BookOdds) :=
  [(("olympique lyon", "nice"), oddsLyonFuzzy), (("lyon", "nice"), oddsPSG)]

/-- Witness for the amended C5: the nonempty exact entry wins over the
earlier fuzzy-qualifying entry. -/
theorem C5_exact_precedence_witness :
    idxLyonExact.lookup (pyLower "Lyon", pyLower "Nice") = some oddsPSG ∧
    oddsPSG ≠ [] ∧
    reconcileOdds idxLyonExact "Lyon" "Nice" = oddsPSG :=
  ⟨rfl, by simp [oddsPSG],
   C5_exact_precedence idxLyonExact "Lyon" "Nice" oddsPSG rfl (by simp [oddsPSG])⟩

/-! ## Claim C8 — the `running` guard -/

/-- C8: when the worker state's `running` flag is set, `run_value_bet_engine`
returns immediately with only the informational "analysis already in
progress" notification: the worker state is returned unchanged, no errors
are recorded, and no `save_bet` call is attempted, so the persisted bet
store is untouched. -/
theorem C8_running_guard (env : Env) (leagues : List ℕ) (vt mp : ℝ)
    (st : WorkerState) (now : ℕ) (silent : Bool) (h : st.running = true) :
    run_value_bet_engine env leagues vt mp st now silent =
      ⟨st, [], [], [], [Msg.alreadyRunning]⟩ := by
  unfold run_value_bet_engine
  rw [h]
  simp

/-- A trivial environment for exercising the guard. -/
def envIdle : Env :=
  ⟨fun _ => .ok [], fun _ => [], fun _ => .ok [], fun _ => .ok [], fun _ => .ok 0⟩

/-- A worker state with the `running` flag set. -/
def stBusy : WorkerState := ⟨none, some 7, none, 3, true⟩

/-- Witness for C8 at a concrete busy state. -/
theorem C8_running_guard_witness :
    stBusy.running = true ∧
    run_value_bet_engine envIdle [61, 39] 1 1 stBusy 9 false =
      ⟨stBusy, [], [], [], [Msg.alreadyRunning]⟩ :=
  ⟨rfl, C8_running_guard envIdle [61, 39] 1 1 stBusy 9 false rfl⟩

/-! ## Sorting lemmas for `find_value_bets` -/

section SortLemmas
variable {α : Type*} [LinearOrder α]

theorem mem_insertBetDesc {b x : ValueBet α} {l : List (ValueBet α)} :
    x ∈ insertBetDesc b l ↔ x = b ∨ x ∈ l := by
  induction l with
  | nil => simp [insertBetDesc]
  | cons a t ih =>
    unfold insertBetDesc
    split_ifs with h
    · simp only [List.mem_cons]
    · simp only [List.mem_cons, ih]
      tauto

theorem mem_sortBetsDesc {x : ValueBet α} {l : List (ValueBet α)} :
    x ∈ sortBetsDesc l ↔ x ∈ l := by
  induction l with
  | nil => simp [sortBetsDesc]
  | cons a t ih =>
    unfold sortBetsDesc
    rw [mem_insertBetDesc, ih, List.mem_cons]

theorem sorted_insertBetDesc {b : ValueBet α} {l : List (ValueBet α)}
    (hl : List.Sorted (fun x y : ValueBet α => y.value ≤ x.value) l) :
    List.Sorted (fun x y : ValueBet α => y.value ≤ x.value) (insertBetDesc b l) := by
  induction l with
  | nil => simp [insertBetDesc]
  | cons a t ih =>
    rw [List.sorted_cons] at hl
    obtain ⟨ha, ht⟩ := hl
    unfold insertBetDesc
    split_ifs with h
    · rw [List.sorted_cons]
      refine ⟨?_, List.sorted_cons.mpr ⟨ha, ht⟩⟩
      intro y hy
      rcases List.mem_cons.mp hy with rfl | hy
      · exact h
      · exact le_trans (ha y hy) h
    · rw [List.sorted_cons]
      refine ⟨?_, ih ht⟩
      intro y hy
      rcases mem_insertBetDesc.mp hy with rfl | hy
      · exact le_of_not_le h
      · exact ha y hy

theorem sorted_sortBetsDesc (l : List (ValueBet α)) :
    List.Sorted (fun x y : ValueBet α => y.value ≤ x.value) (sortBetsDesc l) := by
  induction l with
  | nil => simp [sortBetsDesc]
  | cons a t ih => exact sorted_insertBetDesc ih

theorem filter_insertBetDesc (b : ValueBet α) (l : List (ValueBet α)) (v : α) :
    (insertBetDesc b l).filter (fun x => decide (x.value = v)) =
      if b.value = v then b :: l.filter (fun x => decide (x.value = v))
      else l.filter (fun x => decide (x.value = v)) := by
  induction l with
  | nil =>
    by_cases hb : b.value = v <;> simp [insertBetDesc, List.filter, hb]
  | cons a t ih =>
    have hstep : insertBetDesc b (a :: t) =
        if a.value ≤ b.value then b :: a :: t else a :: insertBetDesc b t := rfl
    rw [hstep]
    by_cases h : a.value ≤ b.value
    · rw [if_pos h]
      by_cases hb : b.value = v <;> simp [List.filter_cons, hb]
    · rw [if_neg h]
      by_cases hb : b.value = v
      · have ha : ¬ a.value = v := fun hav => h (le_of_eq (hav.trans hb.symm))
        simp [List.filter_cons, ha, hb, ih]
      · by_cases ha : a.value = v <;> simp [List.filter_cons, ha, hb, ih]

theorem filter_sortBetsDesc (l : List (ValueBet α)) (v : α) :
    (sortBetsDesc l).filter (fun x => decide (x.value = v)) =
      l.filter (fun x => decide (x.value = v)) := by
  induction l with
  | nil => rfl
  | cons b t ih =>
    show (insertBetDesc b (sortBetsDesc t)).filter _ = _
    rw [filter_insertBetDesc]
    by_cases hb : b.value = v <;> simp [List.filter_cons, hb, ih]

end SortLemmas

/-! ## Claim C9 -/

/-- C9: `find_value_bets` returns its candidates sorted by `value` in
descending order, and the sort is stable with no secondary key: for every
value `v`, the candidates of value `v` appear exactly as in the discovery
order of the accumulation loop (`collect_value_bets`: bookmakers in dict
order, then markets in `market_map` order). -/
theorem C9_sorted_by_value_stable {α : Type*} [LinearOrderedField α] [FloorRing α]
    (predictions : List (String × α))
    (odds : List (String × List (String × Option α))) (vt mp : α) :
    List.Sorted (fun x y : ValueBet α => y.value ≤ x.value)
      (find_value_bets predictions odds vt mp) ∧
    ∀ v : α,
      (find_value_bets predictions odds vt mp).filter (fun x => decide (x.value = v)) =
        (collect_value_bets predictions odds vt mp).filter (fun x => decide (x.value = v)) :=
  ⟨sorted_sortBetsDesc _, fun v => filter_sortBetsDesc _ v⟩

/-! ## Claim C4 -/

/-- The scenario prediction dict: model probability 0.55 on home win. -/
def scenPreds : List (String × ℚ) := [("home_win", 11/20)]

/-- The scenario odds dict: one bookmaker pricing home win at 2.10. -/
def scenOdds : List (String × List (String × Option ℚ)) :=
  [("Winamax", [("home_win", some (21/10))])]

/-- The value bet produced in the scenario: value `2.10·0.55 − 1 = 0.155`. -/
def scenBet : ValueBet ℚ :=
  { market := "Home Win", bookmaker := "Winamax", bk_odds := 21/10,
    model_odds := 909/500, probability := 11/20, value := 31/200 }

/-- C4: every candidate returned by `find_value_bets` comes from a model
probability `prob ≥ min_prob` and a price whose edge `bk_odd·prob − 1` is
*strictly* above `value_threshold`, and its stored fields are the rounded
images of those quantities; in particular price 2.10 against probability
0.55 has value 0.155, which is returned at threshold 0.05, not returned at
threshold 0.20, and not returned at the exact boundary threshold 0.155. -/
theorem C4_candidate_filters :
    (∀ (α : Type) [LinearOrderedField α] [FloorRing α]
       (predictions : List (String × α))
       (odds : List (String × List (String × Option α)))
       (vt mp : α) (b : ValueBet α),
       b ∈ find_value_bets predictions odds vt mp →
       ∃ prob bk_odd : α, mp ≤ prob ∧ vt < bk_odd * prob - 1 ∧
         b.probability = roundTo 4 prob ∧ b.value = roundTo 4 (bk_odd * prob - 1) ∧
         b.bk_odds = roundTo 3 bk_odd ∧ b.model_odds = roundTo 3 (1 / prob)) ∧
    find_value_bets scenPreds scenOdds (5/100) (55/100) = [scenBet] ∧
    find_value_bets scenPreds scenOdds (2/10) (55/100) = [] ∧
    find_value_bets scenPreds scenOdds (31/200) (55/100) = [] := by
  have l1 : List.lookup "home_win" [("home_win", (11/20 : ℚ))] = some (11/20 : ℚ) := rfl
  have l2 : List.lookup "draw" [("home_win", (11/20 : ℚ))] = none := rfl
  have l3 : List.lookup "away_win" [("home_win", (11/20 : ℚ))] = none := rfl
  have l4 : List.lookup "over_2_5" [("home_win", (11/20 : ℚ))] = none := rfl
  have l5 : List.lookup "under_2_5" [("home_win", (11/20 : ℚ))] = none := rfl
  have o1 : List.lookup "home_win" [("home_win", some (21/10 : ℚ))] =
      some (some (21/10)) := rfl
  have o2 : List.lookup "draw" [("home_win", some (21/10 : ℚ))] = none := rfl
  have o3 : List.lookup "away_win" [("home_win", some (21/10 : ℚ))] = none := rfl
  have o4 : List.lookup "over_2_5" [("home_win", some (21/10 : ℚ))] = none := rfl
  have o5 : List.lookup "under_2_5" [("home_win", some (21/10 : ℚ))] = none := rfl
  have hc1 : collect_value_bets scenPreds scenOdds (5/100) (55/100) = [scenBet] := by
    unfold collect_value_bets
    simp only [scenPreds, scenOdds, scenBet, market_map, List.filterMap,
      l1, l2, l3, l4, l5, o1, o2, o3, o4, o5]
    norm_num
    refine ⟨?_, ?_, ?_, ?_⟩
    · rw [show (21/10 : ℚ) = ((2100:ℤ))/10^3 by norm_num, roundTo_int_div]
    · unfold roundTo
      rw [roundHE_eq_of_lt_half _ 1818 (by norm_num) (by norm_num)]
      norm_num
    · rw [show (11/20 : ℚ) = ((5500:ℤ))/10^4 by norm_num, roundTo_int_div]
    · rw [show (31/200 : ℚ) = ((1550:ℤ))/10^4 by norm_num, roundTo_int_div]
  have hc2 : collect_value_bets scenPreds scenOdds (2/10) (55/100) = [] := by
    unfold collect_value_bets
    simp only [scenPreds, scenOdds, market_map, List.filterMap,
      l1, l2, l3, l4, l5, o1, o2, o3, o4, o5]
    norm_num
  have hc3 : collect_value_bets scenPreds scenOdds (31/200) (55/100) = [] := by
    unfold collect_value_bets
    simp only [scenPreds, scenOdds, market_map, List.filterMap,
      l1, l2, l3, l4, l5, o1, o2, o3, o4, o5]
    norm_num
  refine ⟨?_, by rw [find_value_bets, hc1]; rfl,
    by rw [find_value_bets, hc2]; rfl, by rw [find_value_bets, hc3]; rfl⟩
  intro α _ _ predictions odds vt mp b hb
  rw [find_value_bets, mem_sortBetsDesc] at hb
  simp only [collect_value_bets, List.mem_flatMap, List.mem_filterMap] at hb
  obtain ⟨bk, hbk, mm, hmm, hf⟩ := hb
  cases hp : predictions.lookup mm.1 with
  | none => rw [hp] at hf; exact absurd hf (by simp)
  | some prob =>
    cases ho : (bk.2.lookup mm.1).join with
    | none => rw [hp, ho] at hf; exact absurd hf (by simp)
    | some bk_odd =>
      rw [hp, ho] at hf
      dsimp only at hf
      by_cases h1 : prob < mp
      · rw [if_pos h1] at hf
        exact absurd hf (by simp)
      · rw [if_neg h1] at hf
        by_cases h2 : vt < bk_odd * prob - 1
        · rw [if_pos h2] at hf
          refine ⟨prob, bk_odd, not_lt.mp h1, h2, ?_, ?_, ?_, ?_⟩ <;>
            rw [← Option.some.inj hf]
        · rw [if_neg h2] at hf
          exact absurd hf (by simp)

/-- Witness for C4 at the scenario input (price 2.10, probability 0.55,
threshold 0.05). -/
theorem C4_candidate_filters_witness :
    scenBet ∈ find_value_bets scenPreds scenOdds (5/100 : ℚ) (55/100) ∧
    (∃ prob bk_odd : ℚ, 55/100 ≤ prob ∧ 5/100 < bk_odd * prob - 1 ∧
      scenBet.probability = roundTo 4 prob ∧
      scenBet.value = roundTo 4 (bk_odd * prob - 1) ∧
      scenBet.bk_odds = roundTo 3 bk_odd ∧
      scenBet.model_odds = roundTo 3 (1 / prob)) :=
  ⟨by rw [C4_candidate_filters.2.1]; exact List.mem_singleton.mpr rfl,
   C4_candidate_filters.1 ℚ scenPreds scenOdds (5/100) (55/100) scenBet
     (by rw [C4_candidate_filters.2.1]; exact List.mem_singleton.mpr rfl)⟩

/-! ## Claim C6 -/

theorem roundTo3_bounds_of_clamped {c : ℚ} (h1 : 3/10 ≤ c) (h2 : c ≤ 6) :
    (0.3 : ℝ) ≤ roundTo 3 ((c : ℚ) : ℝ) ∧ roundTo 3 ((c : ℚ) : ℝ) ≤ 6 := by
  have hc1 : (0.3 : ℝ) ≤ ((c : ℚ) : ℝ) := by
    rw [show (0.3 : ℝ) = ((3/10 : ℚ) : ℝ) by norm_num]
    exact_mod_cast h1
  have hc2 : ((c : ℚ) : ℝ) ≤ 6 := by
    rw [show (6 : ℝ) = ((6 : ℚ) : ℝ) by norm_num]
    exact_mod_cast h2
  have h03 : roundTo 3 (0.3 : ℝ) = 0.3 := by
    rw [show (0.3 : ℝ) = ((300:ℤ))/10^3 by norm_num, roundTo_int_div]
  have h6 : roundTo 3 (6 : ℝ) = 6 := by
    rw [show (6 : ℝ) = ((6000:ℤ))/10^3 by norm_num, roundTo_int_div]
  constructor
  · calc (0.3 : ℝ) = roundTo 3 (0.3 : ℝ) := h03.symm
      _ ≤ roundTo 3 ((c : ℚ) : ℝ) := roundTo_mono 3 hc1
  · calc roundTo 3 ((c : ℚ) : ℝ) ≤ roundTo 3 (6 : ℝ) := roundTo_mono 3 hc2
      _ = 6 := h6

theorem predict_match_none_left (hid aid : ℕ) (strengths : List (ℕ × TeamStrength))
    (aH aW : ℚ) (hh : strengths.lookup hid = none) :
    predict_match hid aid strengths aH aW = none := by
  unfold predict_match
  rw [hh]

theorem predict_match_none_right (hid aid : ℕ) (strengths : List (ℕ × TeamStrength))
    (aH aW : ℚ) (h : TeamStrength) (hh : strengths.lookup hid = some h)
    (ha : strengths.lookup aid = none) :
    predict_match hid aid strengths aH aW = none := by
  unfold predict_match
  rw [hh, ha]

theorem predLookup_lambda_home (hid aid : ℕ) (strengths : List (ℕ × TeamStrength))
    (aH aW : ℚ) (h a : TeamStrength) (hh : strengths.lookup hid = some h)
    (ha : strengths.lookup aid = some a) :
    predLookup (predict_match hid aid strengths aH aW) "lambda_home" =
      some (roundTo 3 ((max (3/10) (min (h.att_home * a.def_away * aH) 6) : ℚ) : ℝ)) := by
  unfold predict_match predLookup
  rw [hh, ha]
  rfl

theorem predLookup_lambda_away (hid aid : ℕ) (strengths : List (ℕ × TeamStrength))
    (aH aW : ℚ) (h a : TeamStrength) (hh : strengths.lookup hid = some h)
    (ha : strengths.lookup aid = some a) :
    predLookup (predict_match hid aid strengths aH aW) "lambda_away" =
      some (roundTo 3 ((max (3/10) (min (a.att_away * h.def_home * aW) 6) : ℚ) : ℝ)) := by
  unfold predict_match predLookup
  rw [hh, ha]
  rfl

/-- C6: whatever the strength mapping (however extreme) and league averages,
the `lambda_home` and `lambda_away` entries of a prediction returned by
`predict_match` lie in `[0.3, 6.0]`. -/
theorem C6_lambda_clamped (hid aid : ℕ) (strengths : List (ℕ × TeamStrength))
    (aH aW : ℚ) :
    (∀ lh : ℝ, predLookup (predict_match hid aid strengths aH aW) "lambda_home" =
      some lh → 0.3 ≤ lh ∧ lh ≤ 6) ∧
    (∀ la : ℝ, predLookup (predict_match hid aid strengths aH aW) "lambda_away" =
      some la → 0.3 ≤ la ∧ la ≤ 6) := by
  cases hh : strengths.lookup hid with
  | none =>
    constructor <;>
      · intro x hx
        rw [predLookup, predict_match_none_left hid aid strengths aH aW hh] at hx
        simp at hx
  | some h =>
    cases ha : strengths.lookup aid with
    | none =>
      constructor <;>
        · intro x hx
          rw [predLookup,
            predict_match_none_right hid aid strengths aH aW h hh ha] at hx
          simp at hx
    | some a =>
      have hclab : ∀ lam : ℚ, 3/10 ≤ max (3/10) (min lam 6) ∧ max (3/10) (min lam 6) ≤ 6 :=
        fun lam => ⟨le_max_left _ _, max_le (by norm_num) (min_le_right _ _)⟩
      constructor
      · intro lh hx
        rw [predLookup_lambda_home hid aid strengths aH aW h a hh ha] at hx
        rw [← Option.some.inj hx]
        exact roundTo3_bounds_of_clamped (hclab _).1 (hclab _).2
      · intro la hx
        rw [predLookup_lambda_away hid aid strengths aH aW h a hh ha] at hx
        rw [← Option.some.inj hx]
        exact roundTo3_bounds_of_clamped (hclab _).1 (hclab _).2

/-- An extreme strength mapping: the home side's attack strength is 100. -/
def strengthsExtreme : List (ℕ × TeamStrength) :=
  [(1, ⟨100, 1, 1, 1, "Attackers"⟩), (2, ⟨1, 1, 1, 1, "Defenders"⟩)]

/-- Witness for C6: with `att_home = 100` the raw λ is 100 but the returned
`lambda_home` is clamped to 6. -/
theorem C6_lambda_clamped_witness :
    predLookup (predict_match 1 2 strengthsExtreme 1 1) "lambda_home" = some 6 ∧
    ((0.3 : ℝ) ≤ 6 ∧ (6 : ℝ) ≤ 6) := by
  have hyp : predLookup (predict_match 1 2 strengthsExtreme 1 1) "lambda_home" =
      some 6 := by
    rw [predLookup_lambda_home 1 2 strengthsExtreme 1 1 ⟨100, 1, 1, 1, "Attackers"⟩
      ⟨1, 1, 1, 1, "Defenders"⟩ rfl rfl]
    have hm : (max (3/10) (min ((⟨100, 1, 1, 1, "Attackers"⟩ : TeamStrength).att_home *
        (⟨1, 1, 1, 1, "Defenders"⟩ : TeamStrength).def_away * 1) 6) : ℚ) = 6 := by
      norm_num
    rw [hm, show ((6:ℚ):ℝ) = ((6000:ℤ))/10^3 by norm_num, roundTo_int_div]
    norm_num
  exact ⟨hyp, (C6_lambda_clamped 1 2 strengthsExtreme 1 1).1 6 hyp⟩

/-! ## Claim C2 — failure isolation in the engine -/

/-- What the run over `A :: leagues` looks like when league `A` contributes
exactly the error string `msg` and nothing else: the error list gains `msg`
at the front while the saved bets, the attempted saves and the final worker
state are exactly those of the run without `A`, and the run completes
(`running` reset, `last_run` set). -/
def RunContinuation (env : Env) (leagues : List ℕ) (vt mp : ℝ)
    (st : WorkerState) (now : ℕ) (silent : Bool) (A : ℕ) (msg : String) :
    Prop :=
  (run_value_bet_engine env (A :: leagues) vt mp st now silent).errors =
    msg :: (run_value_bet_engine env leagues vt mp st now silent).errors ∧
  (run_value_bet_engine env (A :: leagues) vt mp st now silent).savedBets =
    (run_value_bet_engine env leagues vt mp st now silent).savedBets ∧
  (run_value_bet_engine env (A :: leagues) vt mp st now silent).attemptedSaves =
    (run_value_bet_engine env leagues vt mp st now silent).attemptedSaves ∧
  (run_value_bet_engine env (A :: leagues) vt mp st now silent).state =
    (run_value_bet_engine env leagues vt mp st now silent).state ∧
  (run_value_bet_engine env (A :: leagues) vt mp st now silent).state.running =
    false ∧
  (run_value_bet_engine env (A :: leagues) vt mp st now silent).state.last_run =
    some now

/-- A league whose `processLeague` result is a single error string and no
bets behaves, at run level, exactly as `RunContinuation` describes. -/
theorem runContinuation_of_single_error (env : Env) (leagues : List ℕ)
    (vt mp : ℝ) (st : WorkerState) (now : ℕ) (silent : Bool) (A : ℕ)
    (msg : String) (hrun : st.running = false)
    (hPL : processLeague env vt mp A = ⟨[msg], [], []⟩) :
    RunContinuation env leagues vt mp st now silent A msg := by
  unfold RunContinuation run_value_bet_engine
  rw [hrun]
  simp [hPL]

/-- A thrown fixtures fetch makes the league contribute exactly its
`Fixtures`-scoped error string. -/
theorem processLeague_fixtures_error (env : Env) (vt mp : ℝ) (A : ℕ)
    (e : String) (hA : env.get_fixtures A = .error e) :
    processLeague env vt mp A = ⟨[s!"Fixtures {leagueName A}: {e}"], [], []⟩ := by
  unfold processLeague
  rw [hA]

/-- A thrown standings fetch during the empty-stats auto-refresh makes the
league contribute exactly its `Auto-refresh`-scoped error string. -/
theorem processLeague_autorefresh_error (env : Env) (vt mp : ℝ) (A : ℕ)
    (e : String) (fixtures : List Fixture)
    (hf : env.get_fixtures A = .ok fixtures) (hne : fixtures ≠ [])
    (hts : env.get_team_stats A = [])
    (hst : env.get_team_standings A = .error e) :
    processLeague env vt mp A =
      ⟨[s!"Auto-refresh {leagueName A}: {e}"], [], []⟩ := by
  have hempty : fixtures.isEmpty = false := by
    cases fixtures with
    | nil => exact absurd rfl hne
    | cons a t => rfl
  simp only [processLeague, hf, hempty, hts, hst, List.isEmpty_nil,
    Bool.false_eq_true, if_false, if_true, ite_true, ite_false]

/-- With an empty odds index every fixture is skipped: the prediction may
exist, but the reconciliation yields no odds whatever the names. -/
theorem processFixture_nil_odds (env : Env) (vt mp : ℝ) (ln : String)
    (strengths : List (ℕ × TeamStrength)) (aH aW : ℚ) (fix : Fixture) :
    processFixture env vt mp ln strengths aH aW [] fix = ([], []) := by
  unfold processFixture
  cases hp : predict_match fix.home_team_id fix.away_team_id strengths aH aW with
  | none => rfl
  | some pred =>
    have hrec : reconcileOdds ([] : List ((String × String) × BookOdds))
        fix.home_team_name fix.away_team_name = [] := rfl
    simp only [hrec, List.isEmpty_nil, ite_true, if_true]

/-- A list of all-empty fixture results joins to nothing. -/
theorem join_map_const_nil {β γ : Type*} (l : List β) :
    (l.map fun _ => ([] : List γ)).join = [] := by
  induction l with
  | nil => rfl
  | cons a t ih => simp [ih]

/-- A thrown odds fetch (with team stats available) makes the league
contribute exactly its `Cotes`-scoped error string: the fixture loop still
runs, but against an empty odds index it produces no bets. -/
theorem processLeague_odds_error (env : Env) (vt mp : ℝ) (A : ℕ)
    (e : String) (fixtures : List Fixture)
    (hf : env.get_fixtures A = .ok fixtures) (hne : fixtures ≠ [])
    (hts : env.get_team_stats A ≠ []) (ho : env.get_odds A = .error e) :
    processLeague env vt mp A = ⟨[s!"Cotes {leagueName A}: {e}"], [], []⟩ := by
  have hempty : fixtures.isEmpty = false := by
    cases fixtures with
    | nil => exact absurd rfl hne
    | cons a t => rfl
  have htsne : (env.get_team_stats A).isEmpty = false := by
    cases h : env.get_team_stats A with
    | nil => exact absurd h hts
    | cons a t => rfl
  simp only [processLeague, hf, hempty, htsne, ho, Bool.false_eq_true,
    if_false, ite_false, List.map_nil, buildDict, List.foldl_nil,
    processFixture_nil_odds, List.map_map]
  simp only [LeagueResult.mk.injEq]
  exact ⟨trivial, join_map_const_nil fixtures, join_map_const_nil fixtures⟩

/-- C2 (amended): each fetch-stage failure — fixtures fetch, stats
auto-refresh, odds fetch — is caught and recorded as a league-scoped error
string (`Fixtures …`, `Auto-refresh …`, `Cotes …` respectively), the failing
league contributing exactly that string while the rest of the run (other
leagues' bets, attempted saves, final worker state) proceeds exactly as if
that league were absent, and the run completes (`running` reset, `last_run`
set). -/
theorem C2_stage_failures_isolated :
    (∀ (env : Env) (leagues : List ℕ) (vt mp : ℝ) (st : WorkerState) (now : ℕ)
       (silent : Bool) (A : ℕ) (e : String), st.running = false →
       env.get_fixtures A = .error e →
       RunContinuation env leagues vt mp st now silent A
         s!"Fixtures {leagueName A}: {e}") ∧
    (∀ (env : Env) (leagues : List ℕ) (vt mp : ℝ) (st : WorkerState) (now : ℕ)
       (silent : Bool) (A : ℕ) (e : String) (fixtures : List Fixture),
       st.running = false → env.get_fixtures A = .ok fixtures →
       fixtures ≠ [] → env.get_team_stats A = [] →
       env.get_team_standings A = .error e →
       RunContinuation env leagues vt mp st now silent A
         s!"Auto-refresh {leagueName A}: {e}") ∧
    (∀ (env : Env) (leagues : List ℕ) (vt mp : ℝ) (st : WorkerState) (now : ℕ)
       (silent : Bool) (A : ℕ) (e : String) (fixtures : List Fixture),
       st.running = false → env.get_fixtures A = .ok fixtures →
       fixtures ≠ [] → env.get_team_stats A ≠ [] →
       env.get_odds A = .error e →
       RunContinuation env leagues vt mp st now silent A
         s!"Cotes {leagueName A}: {e}") := by
  refine ⟨?_, ?_, ?_⟩
  · intro env leagues vt mp st now silent A e hrun hA
    exact runContinuation_of_single_error env leagues vt mp st now silent A _
      hrun (processLeague_fixtures_error env vt mp A e hA)
  · intro env leagues vt mp st now silent A e fixtures hrun hf hne hts hst
    exact runContinuation_of_single_error env leagues vt mp st now silent A _
      hrun (processLeague_autorefresh_error env vt mp A e fixtures hf hne hts hst)
  · intro env leagues vt mp st now silent A e fixtures hrun hf hne hts ho
    exact runContinuation_of_single_error env leagues vt mp st now silent A _
      hrun (processLeague_odds_error env vt mp A e fixtures hf hne hts ho)

/-- Environment whose fixtures fetch always throws. -/
def envFixFail : Env :=
  ⟨fun _ => .error "boom", fun _ => [], fun _ => .ok [], fun _ => .ok [],
   fun _ => .ok 0⟩

/-- An idle worker state. -/
def stIdle : WorkerState := ⟨none, none, none, 0, false⟩

/-- A team row with one game and one goal everywhere. -/
def statOne : TeamStats := ⟨"T", 1, 1, 1, 1, 1, 1⟩

/-- A single upcoming fixture between the two teams of `statOne`. -/
def fixDemo : Fixture := ⟨1, "2026-01-01", 1, "H", 2, "A", 61⟩

/-- One bookmaker quoting the home win at price 1. -/
noncomputable def oddsDemo : BookOdds := [("BK", [("home_win", some 1)])]

/-- The odds event matching `fixDemo` exactly by name. -/
noncomputable def evDemo : OddsEvent := ⟨"2026-01-01", "H", "A", oddsDemo, "ev1"⟩

/-- Environment whose fixtures fetch succeeds but whose standings fetch (the
auto-refresh fallback for an empty stats table) throws. -/
def envRefreshFail : Env :=
  ⟨fun _ => .ok [fixDemo], fun _ => [], fun _ => .error "api down",
   fun _ => .ok [], fun _ => .ok 0⟩

/-- Environment with a fixture and stats but a throwing odds fetch. -/
def envOddsFail : Env :=
  ⟨fun _ => .ok [fixDemo], fun _ => [(1, statOne), (2, statOne)],
   fun _ => .ok [], fun _ => .error "odds down", fun _ => .ok 0⟩

/-- Witness for the amended C2: the three stage failures exercised at
concrete environments, the hypotheses discharged by computation. -/
theorem C2_stage_failures_isolated_witness :
    (stIdle.running = false ∧ envFixFail.get_fixtures 61 = Except.error "boom" ∧
      RunContinuation envFixFail [39] 1 1 stIdle 5 true 61
        "Fixtures Ligue 1: boom") ∧
    (envRefreshFail.get_fixtures 61 = Except.ok [fixDemo] ∧
      ([fixDemo] : List Fixture) ≠ [] ∧ envRefreshFail.get_team_stats 61 = [] ∧
      envRefreshFail.get_team_standings 61 = Except.error "api down" ∧
      RunContinuation envRefreshFail [] 1 1 stIdle 5 true 61
        "Auto-refresh Ligue 1: api down") ∧
    (envOddsFail.get_fixtures 61 = Except.ok [fixDemo] ∧
      envOddsFail.get_team_stats 61 ≠ [] ∧
      envOddsFail.get_odds 61 = Except.error "odds down" ∧
      RunContinuation envOddsFail [] 1 1 stIdle 5 true 61
        "Cotes Ligue 1: odds down") := by
  refine ⟨⟨rfl, rfl, ?_⟩,
    ⟨rfl, List.cons_ne_nil _ _, rfl, rfl, ?_⟩,
    ⟨rfl, List.cons_ne_nil _ _, rfl, ?_⟩⟩
  · exact C2_stage_failures_isolated.1 envFixFail [39] 1 1 stIdle 5 true 61
      "boom" rfl rfl
  · exact C2_stage_failures_isolated.2.1 envRefreshFail [] 1 1 stIdle 5 true 61
      "api down" [fixDemo] rfl rfl (List.cons_ne_nil _ _) rfl rfl
  · exact C2_stage_failures_isolated.2.2 envOddsFail [] 1 1 stIdle 5 true 61
      "odds down" [fixDemo] rfl rfl (List.cons_ne_nil _ _)
      (List.cons_ne_nil _ _) rfl

/-- Environment with one fixture, stats for both teams, one odds event, and
a `save_bet` that always throws. -/
noncomputable def envSaveFail : Env :=
  ⟨fun _ => .ok [fixDemo], fun _ => [(1, statOne), (2, statOne)],
   fun _ => .ok [], fun _ => .ok [evDemo], fun _ => .error "db error"⟩

/-- The strengths computed from `statOne` with unit league averages. -/
def strengthsDemo : List (ℕ × TeamStrength) :=
  [(1, ⟨1, 1, 1, 1, "T"⟩), (2, ⟨1, 1, 1, 1, "T"⟩)]

/-- The clamped λ of the demo prediction. -/
noncomputable def lamDemo : ℝ := ((max (3/10) (min ((1:ℚ) * 1 * 1) 6) : ℚ) : ℝ)

/-- The demo score matrix. -/
noncomputable def matrixDemo : List (List ℝ) := build_score_matrix lamDemo lamDemo 8

/-- The demo model probability of a home win (as stored in the prediction). -/
noncomputable def pDemo : ℝ := roundTo 4 (calc_1x2 matrixDemo).home_win

/-- The prediction dict `predict_match` returns in the demo. -/
noncomputable def predListDemo : List (String × ℝ) :=
  [("lambda_home", roundTo 3 lamDemo),
   ("lambda_away", roundTo 3 lamDemo),
   ("home_win", pDemo),
   ("draw", roundTo 4 (calc_1x2 matrixDemo).draw),
   ("away_win", roundTo 4 (calc_1x2 matrixDemo).away_win),
   ("over_2_5", roundTo 4 (calc_over_under matrixDemo (5/2)).over_2_5),
   ("under_2_5", roundTo 4 (calc_over_under matrixDemo (5/2)).under_2_5),
   ("btts_yes", roundTo 4 (calc_btts matrixDemo).btts_yes),
   ("btts_no", roundTo 4 (calc_btts matrixDemo).btts_no)]

/-- The single value bet the demo run discovers. -/
noncomputable def betDemo : ValueBet ℝ :=
  { market := "Home Win", bookmaker := "BK", bk_odds := roundTo 3 1,
    model_odds := roundTo 3 (1 / pDemo), probability := roundTo 4 pDemo,
    value := roundTo 4 (1 * pDemo - 1) }

/-- The record the demo run hands to `save_bet`. -/
noncomputable def recDemo : SavedRecord := ⟨"2026-01-01", "Ligue 1", "H", "A", betDemo⟩

theorem predict_match_demo :
    predict_match fixDemo.home_team_id fixDemo.away_team_id strengthsDemo 1 1 =
      some predListDemo := rfl

theorem find_value_bets_demo :
    find_value_bets predListDemo oddsDemo (-2) (-1) = [betDemo] := by
  have hhw : (calc_1x2 matrixDemo).home_win =
      cellSum (build_score_matrix lamDemo lamDemo 8) fun i j => j < i := rfl
  have hp0 : (0:ℝ) ≤ pDemo := by
    unfold pDemo
    rw [hhw]
    exact roundTo_nonneg 4 (cellSum_build_nonneg lamDemo lamDemo 8 _)
  have h1 : ¬ (pDemo < -1) := not_lt.mpr (by linarith)
  have h2 : (-2:ℝ) < 1 * pDemo - 1 := by linarith
  have p1 : List.lookup "home_win" predListDemo = some pDemo := rfl
  have p2 : List.lookup "draw" predListDemo =
      some (roundTo 4 (calc_1x2 matrixDemo).draw) := rfl
  have p3 : List.lookup "away_win" predListDemo =
      some (roundTo 4 (calc_1x2 matrixDemo).away_win) := rfl
  have p4 : List.lookup "over_2_5" predListDemo =
      some (roundTo 4 (calc_over_under matrixDemo (5/2)).over_2_5) := rfl
  have p5 : List.lookup "under_2_5" predListDemo =
      some (roundTo 4 (calc_over_under matrixDemo (5/2)).under_2_5) := rfl
  have q1 : List.lookup "home_win" [("home_win", some (1:ℝ))] = some (some 1) := rfl
  have q2 : List.lookup "draw" [("home_win", some (1:ℝ))] = none := rfl
  have q3 : List.lookup "away_win" [("home_win", some (1:ℝ))] = none := rfl
  have q4 : List.lookup "over_2_5" [("home_win", some (1:ℝ))] = none := rfl
  have q5 : List.lookup "under_2_5" [("home_win", some (1:ℝ))] = none := rfl
  unfold find_value_bets collect_value_bets
  simp only [oddsDemo, market_map, List.flatMap_cons, List.flatMap_nil,
    List.filterMap, p1, p2, p3, p4, p5, q1, q2, q3, q4, q5, Option.join,
    Option.some_bind, Option.none_bind, id_eq, List.append_nil]
  rw [if_neg h1, if_pos h2]
  rfl

theorem processFixture_demo :
    processFixture envSaveFail (-2) (-1) "Ligue 1" strengthsDemo 1 1
      [(("h", "a"), oddsDemo)] fixDemo = ([], [recDemo]) := by
  unfold processFixture
  rw [predict_match_demo]
  have hrec : reconcileOdds [(("h", "a"), oddsDemo)] fixDemo.home_team_name
      fixDemo.away_team_name = oddsDemo := rfl
  rw [hrec]
  have hne : ¬ (oddsDemo.isEmpty = true) := by
    rw [show oddsDemo.isEmpty = false from rfl]
    simp
  dsimp only
  rw [if_neg hne, find_value_bets_demo]
  rfl

theorem calc_league_averages_demo :
    calc_league_averages [(1, statOne), (2, statOne)] = (1, 1) := by
  unfold calc_league_averages statOne
  norm_num

theorem calc_strength_demo :
    calc_attack_defense_strength [(1, statOne), (2, statOne)] 1 1 = strengthsDemo := by
  unfold calc_attack_defense_strength strengthOf statOne strengthsDemo
  norm_num [TeamStrength.mk.injEq]

theorem processLeague_demo :
    processLeague envSaveFail (-2) (-1) 61 = ⟨[], [], [recDemo]⟩ := by
  have step1 : processLeague envSaveFail (-2) (-1) 61 = ⟨[],
      (processFixture envSaveFail (-2) (-1) "Ligue 1"
        (calc_attack_defense_strength [(1, statOne), (2, statOne)]
          (calc_league_averages [(1, statOne), (2, statOne)]).1
          (calc_league_averages [(1, statOne), (2, statOne)]).2)
        (calc_league_averages [(1, statOne), (2, statOne)]).1
        (calc_league_averages [(1, statOne), (2, statOne)]).2
        [(("h", "a"), oddsDemo)] fixDemo).1 ++ [],
      (processFixture envSaveFail (-2) (-1) "Ligue 1"
        (calc_attack_defense_strength [(1, statOne), (2, statOne)]
          (calc_league_averages [(1, statOne), (2, statOne)]).1
          (calc_league_averages [(1, statOne), (2, statOne)]).2)
        (calc_league_averages [(1, statOne), (2, statOne)]).1
        (calc_league_averages [(1, statOne), (2, statOne)]).2
        [(("h", "a"), oddsDemo)] fixDemo).2 ++ []⟩ := rfl
  rw [step1, calc_league_averages_demo]
  dsimp only
  rw [calc_strength_demo, processFixture_demo]
  simp

/-- Counterexample to C2: in a run where a value bet is found and its
`save_bet` throws, the failure is caught (the run completes, the bet is just
not persisted) but it is *not* recorded in the run's error list — `errors`
stays empty while the attempted save demonstrably failed. -/
theorem C2_counterexample :
    (run_value_bet_engine envSaveFail [61] (-2) (-1) stIdle 0 true).errors = [] ∧
    (run_value_bet_engine envSaveFail [61] (-2) (-1) stIdle 0 true).savedBets = [] ∧
    (run_value_bet_engine envSaveFail [61] (-2) (-1) stIdle 0 true).attemptedSaves =
      [recDemo] ∧
    envSaveFail.save_bet recDemo = .error "db error" ∧
    (run_value_bet_engine envSaveFail [61] (-2) (-1) stIdle 0 true).state.running =
      false := by
  unfold run_value_bet_engine
  rw [show stIdle.running = false from rfl]
  refine ⟨by simp [processLeague_demo], by simp [processLeague_demo],
    by simp [processLeague_demo], rfl, by simp [processLeague_demo]⟩

/-! ## Claim C1 — mass of the truncated scoreline grid

The grid truncates each Poisson marginal at 8 goals, so its total mass is
`S(λ_home)·S(λ_away)` with `S(λ) = P(Poisson(λ) ≤ 8)`.  `S` is decreasing in
λ; over the clamped range its minimum is `S(6) ≈ 0.8472`, so the grid mass
ranges over ≈ `[0.7177, 1]` — the 1X2 probabilities always sum *exactly* to
the grid mass, but that mass is *not* within a small epsilon of 1 at large
λ. -/

/-- Partial sum of one Poisson marginal over the grid's 9 rows. -/
noncomputable def gridRowSum (lam : ℝ) : ℝ :=
  ∑ k ∈ Finset.range 9, poisson_prob lam k

/-- The degree-8 Taylor polynomial of `exp`. -/
noncomputable def expPoly8 (x : ℝ) : ℝ :=
  1 + x + x^2/2 + x^3/6 + x^4/24 + x^5/120 + x^6/720 + x^7/5040 + x^8/40320

theorem matrixTotal_build (lh la : ℝ) :
    matrixTotal (build_score_matrix lh la 8) = gridRowSum lh * gridRowSum la := by
  unfold matrixTotal gridRowSum
  rw [cellSum_build]
  rw [Finset.sum_mul_sum]
  simp

theorem gridRowSum_eq_exp_mul {lam : ℝ} (h : 0 < lam) :
    gridRowSum lam = Real.exp (-lam) * expPoly8 lam := by
  have hne : ¬ lam ≤ 0 := not_le.mpr h
  unfold gridRowSum expPoly8
  simp only [Finset.sum_range_succ, Finset.sum_range_zero, poisson_prob, hne,
    if_false, Nat.factorial]
  push_cast
  ring

theorem expPoly8_eq_taylor (x : ℝ) :
    expPoly8 x = ∑ i ∈ Finset.range 9, x ^ i / (Nat.factorial i) := by
  unfold expPoly8
  simp only [Finset.sum_range_succ, Finset.sum_range_zero, Nat.factorial]
  push_cast
  ring

theorem expPoly8_nonneg {x : ℝ} (h : 0 ≤ x) : 0 ≤ expPoly8 x := by
  unfold expPoly8
  positivity

theorem gridRowSum_le_one {lam : ℝ} (h : 0 < lam) : gridRowSum lam ≤ 1 := by
  rw [gridRowSum_eq_exp_mul h]
  have hsum : expPoly8 lam ≤ Real.exp lam := by
    rw [expPoly8_eq_taylor]
    exact Real.sum_le_exp_of_nonneg h.le 9
  calc Real.exp (-lam) * expPoly8 lam ≤ Real.exp (-lam) * Real.exp lam :=
        mul_le_mul_of_nonneg_left hsum (Real.exp_nonneg _)
    _ = 1 := by rw [← Real.exp_add]; simp

theorem expDecayPoly_hasDerivAt (x : ℝ) :
    HasDerivAt (fun y : ℝ => Real.exp (-y) * expPoly8 y)
      (-(Real.exp (-x) * (x^8/40320))) x := by
  have hE : HasDerivAt (fun y : ℝ => Real.exp (-y)) (-Real.exp (-x)) x := by
    have h := (Real.hasDerivAt_exp (-x)).comp x (hasDerivAt_neg' x)
    simpa using h
  have hP : HasDerivAt expPoly8 (expPoly8 x - x^8/40320) x := by
    unfold expPoly8
    have h := ((((((((hasDerivAt_const x (1:ℝ)).add (hasDerivAt_id x)).add
      ((hasDerivAt_pow 2 x).div_const 2)).add ((hasDerivAt_pow 3 x).div_const 6)).add
      ((hasDerivAt_pow 4 x).div_const 24)).add ((hasDerivAt_pow 5 x).div_const 120)).add
      ((hasDerivAt_pow 6 x).div_const 720)).add ((hasDerivAt_pow 7 x).div_const 5040)).add
      ((hasDerivAt_pow 8 x).div_const 40320)
    convert h using 1
    push_cast
    ring
  have h := hE.mul hP
  convert h using 1
  ring

theorem expDecayPoly_antitone :
    Antitone fun y : ℝ => Real.exp (-y) * expPoly8 y := by
  refine antitone_of_deriv_nonpos (fun x => (expDecayPoly_hasDerivAt x).differentiableAt)
    fun x => ?_
  rw [(expDecayPoly_hasDerivAt x).deriv]
  have h1 : (0:ℝ) < Real.exp (-x) := Real.exp_pos _
  have h2 : (0:ℝ) ≤ x^8 := by positivity
  nlinarith

theorem exp_six_bounds : (403.4287 : ℝ) < Real.exp 6 ∧ Real.exp 6 < 403.4288 := by
  have h6 : Real.exp 6 = (Real.exp 1) ^ (6:ℕ) := by
    rw [← Real.exp_nat_mul]
    norm_num
  constructor
  · have hlow : (2.7182818283 : ℝ) ^ (6:ℕ) < (Real.exp 1) ^ (6:ℕ) :=
      pow_lt_pow_left Real.exp_one_gt_d9 (by norm_num) (by norm_num)
    have : (403.4287 : ℝ) < (2.7182818283 : ℝ) ^ (6:ℕ) := by norm_num
    rw [h6]
    linarith
  · have hhigh : (Real.exp 1) ^ (6:ℕ) < (2.7182818286 : ℝ) ^ (6:ℕ) :=
      pow_lt_pow_left Real.exp_one_lt_d9 (Real.exp_nonneg 1) (by norm_num)
    have : (2.7182818286 : ℝ) ^ (6:ℕ) < 403.4288 := by norm_num
    rw [h6]
    linarith

theorem gridRowSum_six_bounds :
    (0.8472 : ℝ) < gridRowSum 6 ∧ gridRowSum 6 < 0.848 := by
  have hv : gridRowSum 6 = Real.exp (-6) * expPoly8 6 :=
    gridRowSum_eq_exp_mul (by norm_num)
  have hp : expPoly8 6 = 1709/5 := by unfold expPoly8; norm_num
  have hexp := exp_six_bounds
  have hepos : (0:ℝ) < Real.exp 6 := Real.exp_pos 6
  have hneg : Real.exp (-6 : ℝ) = (Real.exp 6)⁻¹ := by
    rw [← Real.exp_neg]
  rw [hv, hp, hneg]
  have hinv1 : (403.4288 : ℝ)⁻¹ < (Real.exp 6)⁻¹ := by
    gcongr
    exact hexp.2
  have hinv2 : (Real.exp 6)⁻¹ < (403.4287 : ℝ)⁻¹ := by
    gcongr
    exact hexp.1
  have hm1 : (403.4288 : ℝ)⁻¹ * (1709/5) < (Real.exp 6)⁻¹ * (1709/5) :=
    mul_lt_mul_of_pos_right hinv1 (by norm_num)
  have hm2 : (Real.exp 6)⁻¹ * (1709/5) < (403.4287 : ℝ)⁻¹ * (1709/5) :=
    mul_lt_mul_of_pos_right hinv2 (by norm_num)
  have hn1 : (0.8472 : ℝ) < (403.4288 : ℝ)⁻¹ * (1709/5) := by norm_num
  have hn2 : (403.4287 : ℝ)⁻¹ * (1709/5) < 0.848 := by norm_num
  constructor
  · linarith
  · linarith

theorem gridRowSum_bounds {lam : ℝ} (h1 : 0.3 ≤ lam) (h2 : lam ≤ 6) :
    (0.8472 : ℝ) < gridRowSum lam ∧ gridRowSum lam ≤ 1 := by
  have hpos : (0:ℝ) < lam := by linarith
  refine ⟨?_, gridRowSum_le_one hpos⟩
  have hmono := expDecayPoly_antitone h2
  have h6 := gridRowSum_six_bounds.1
  have hv6 : gridRowSum 6 = Real.exp (-6) * expPoly8 6 :=
    gridRowSum_eq_exp_mul (by norm_num)
  have hvl : gridRowSum lam = Real.exp (-lam) * expPoly8 lam :=
    gridRowSum_eq_exp_mul hpos
  rw [hv6] at h6
  rw [hvl]
  calc (0.8472 : ℝ) < Real.exp (-6) * expPoly8 6 := h6
    _ ≤ Real.exp (-lam) * expPoly8 lam := hmono

/-- C1 (amended): over the clamped λ range, the three 1X2 probabilities sum
*exactly* to the grid's total mass, and that mass lies in `[0.71, 1]` — it
is within ε = 0.29 of 1 (the deficit is the Poisson tail beyond 8 goals),
but not within a small epsilon uniformly (see the counterexample at
λ = 6). -/
theorem C1_grid_and_1x2_mass (lh la : ℝ) (h1 : 0.3 ≤ lh) (h2 : lh ≤ 6)
    (h3 : 0.3 ≤ la) (h4 : la ≤ 6) :
    (calc_1x2 (build_score_matrix lh la 8)).home_win +
        (calc_1x2 (build_score_matrix lh la 8)).draw +
        (calc_1x2 (build_score_matrix lh la 8)).away_win =
      matrixTotal (build_score_matrix lh la 8) ∧
    matrixTotal (build_score_matrix lh la 8) ≤ 1 ∧
    (71/100 : ℝ) ≤ matrixTotal (build_score_matrix lh la 8) := by
  have hA := gridRowSum_bounds h1 h2
  have hB := gridRowSum_bounds h3 h4
  have h0A : (0:ℝ) ≤ gridRowSum lh := by linarith [hA.1]
  have h0B : (0:ℝ) ≤ gridRowSum la := by linarith [hB.1]
  refine ⟨sum_1x2_eq_matrixTotal _, ?_, ?_⟩
  · rw [matrixTotal_build]
    nlinarith [hA.2, hB.2]
  · rw [matrixTotal_build]
    nlinarith [hA.1, hB.1]

/-- Witness for the amended C1 at λ_home = λ_away = 1. -/
theorem C1_grid_and_1x2_mass_witness :
    ((0.3 : ℝ) ≤ 1 ∧ (1 : ℝ) ≤ 6) ∧
    ((calc_1x2 (build_score_matrix 1 1 8)).home_win +
        (calc_1x2 (build_score_matrix 1 1 8)).draw +
        (calc_1x2 (build_score_matrix 1 1 8)).away_win =
      matrixTotal (build_score_matrix 1 1 8) ∧
    matrixTotal (build_score_matrix 1 1 8) ≤ 1 ∧
    (71/100 : ℝ) ≤ matrixTotal (build_score_matrix 1 1 8)) :=
  ⟨⟨by norm_num, by norm_num⟩,
   C1_grid_and_1x2_mass 1 1 (by norm_num) (by norm_num) (by norm_num) (by norm_num)⟩

/-- Counterexample to C1: at the clamp's upper corner λ_home = λ_away = 6
the grid total — and so also the 1X2 sum, which equals it exactly — misses
1 by more than 0.01 (in fact by more than 0.28): the cells do *not* sum to 1
within a small epsilon for every clamped λ pair. -/
theorem C1_counterexample :
    ((0.3 : ℝ) ≤ 6 ∧ (6 : ℝ) ≤ 6) ∧
    |matrixTotal (build_score_matrix 6 6 8) - 1| > 1/100 ∧
    |((calc_1x2 (build_score_matrix 6 6 8)).home_win +
      (calc_1x2 (build_score_matrix 6 6 8)).draw +
      (calc_1x2 (build_score_matrix 6 6 8)).away_win) - 1| > 1/100 := by
  have h6 := gridRowSum_six_bounds
  have h0 : (0:ℝ) ≤ gridRowSum 6 := by linarith [h6.1]
  have htot : matrixTotal (build_score_matrix 6 6 8) = gridRowSum 6 * gridRowSum 6 :=
    matrixTotal_build 6 6
  have hlt : matrixTotal (build_score_matrix 6 6 8) < 0.72 := by
    rw [htot]
    nlinarith [h6.2]
  have habs : |matrixTotal (build_score_matrix 6 6 8) - 1| =
      1 - matrixTotal (build_score_matrix 6 6 8) := by
    rw [abs_of_nonpos (by linarith)]
    ring
  refine ⟨⟨by norm_num, le_rfl⟩, ?_, ?_⟩
  · rw [habs]
    linarith
  · rw [sum_1x2_eq_matrixTotal, habs]
    linarith
